import Mathlib

/-!
# Verification of `p2p-node-handshake`

A shallow embedding of the repository's core components and proofs of the
specification's claims about them:

* the DNS seed registry (`src/dns_seed_mananger.rs`),
* the wire-message codec (`src/network_messages.rs`, with the binary
  envelope format modelled from the specification because the consensus
  codec lives in the external `bitcoin` crate),
* the handshake driver and ledger (`src/handshake_manager.rs`).

Machine integers are modelled as `Nat` / `Int` with explicit `% 2^w`
normalisation at the points where the Rust code relies on fixed-width
arithmetic.  Fallible operations return `Except`; ambient non-determinism
(DNS answers, socket I/O, the wall clock, the RNG) is passed in explicitly
as oracle arguments, mirroring the order in which the Rust code consumes
those effects.
-/

/-! ## Byte-level primitives -/

/-- Little-endian value of a byte list: `bytes[0] + 256*bytes[1] + ...`. -/
def leToNat (bs : List Nat) : Nat :=
  bs.foldr (fun b acc => b + 256 * acc) 0

/-- Big-endian value of a byte list. -/
def beToNat (bs : List Nat) : Nat :=
  bs.foldl (fun acc b => acc * 256 + b) 0

/-- Two-byte big-endian encoding of a `u16` (network byte order, as used for
IP segments and ports in the wire format). -/
def u16ToBE (n : Nat) : List Nat :=
  [n / 256 % 256, n % 256]

/-- Four-byte little-endian encoding of a `u32`. -/
def u32ToLE (n : Nat) : List Nat :=
  [n % 256, n / 256 % 256, n / 65536 % 256, n / 16777216 % 256]

/-- Four-byte big-endian encoding of a `u32` (used inside SHA-256). -/
def u32ToBE (n : Nat) : List Nat :=
  [n / 16777216 % 256, n / 65536 % 256, n / 256 % 256, n % 256]

/-- Eight-byte little-endian encoding of a `u64`. -/
def u64ToLE (n : Nat) : List Nat :=
  [n % 256, n / 256 % 256, n / 65536 % 256, n / 16777216 % 256,
   n / 4294967296 % 256, n / 1099511627776 % 256,
   n / 281474976710656 % 256, n / 72057594037927936 % 256]

/-- Eight-byte big-endian encoding of a `u64` (SHA-256 length field). -/
def u64ToBE (n : Nat) : List Nat :=
  [n / 72057594037927936 % 256, n / 281474976710656 % 256,
   n / 1099511627776 % 256, n / 4294967296 % 256,
   n / 16777216 % 256, n / 65536 % 256, n / 256 % 256, n % 256]

/-- Eight-byte little-endian two's-complement encoding of an `i64`. -/
def i64ToLE (z : Int) : List Nat :=
  u64ToLE (z % 18446744073709551616).toNat

/-- Four-byte little-endian two's-complement encoding of an `i32`. -/
def i32ToLE (z : Int) : List Nat :=
  u32ToLE (z % 4294967296).toNat

/-- Decode an unsigned 64-bit value back into the signed `i64` it encodes. -/
def u64ToI64 (n : Nat) : Int :=
  if n < 9223372036854775808 then (n : Int) else (n : Int) - 18446744073709551616

/-- Decode an unsigned 32-bit value back into the signed `i32` it encodes. -/
def u32ToI32 (n : Nat) : Int :=
  if n < 2147483648 then (n : Int) else (n : Int) - 4294967296

/-- Read exactly `n` bytes from the front of a stream; `none` on truncation. -/
def readBytes : Nat → List Nat → Option (List Nat × List Nat)
  | 0, s => some ([], s)
  | _ + 1, [] => none
  | n + 1, b :: s =>
    match readBytes n s with
    | some (xs, rest) => some (b :: xs, rest)
    | none => none

theorem readBytes_append (xs rest : List Nat) :
    readBytes xs.length (xs ++ rest) = some (xs, rest) := by
  induction xs with
  | nil => rfl
  | cons b t ih => simp [readBytes, ih]

theorem readBytes_of_length {n : Nat} (xs rest : List Nat) (h : xs.length = n) :
    readBytes n (xs ++ rest) = some (xs, rest) := by
  subst h; exact readBytes_append xs rest

theorem leToNat_u32ToLE {n : Nat} (h : n < 4294967296) :
    leToNat (u32ToLE n) = n := by
  simp [leToNat, u32ToLE, List.foldr]
  omega

theorem u32ToLE_length (n : Nat) : (u32ToLE n).length = 4 := rfl

theorem leToNat_u64ToLE {n : Nat} (h : n < 18446744073709551616) :
    leToNat (u64ToLE n) = n := by
  simp [leToNat, u64ToLE, List.foldr]
  omega

theorem u64ToLE_length (n : Nat) : (u64ToLE n).length = 8 := rfl

theorem beToNat_u16ToBE {n : Nat} (h : n < 65536) :
    beToNat (u16ToBE n) = n := by
  simp [beToNat, u16ToBE, List.foldl]
  omega

theorem u16ToBE_length (n : Nat) : (u16ToBE n).length = 2 := rfl

theorem u64ToI64_i64 {z : Int}
    (hlo : -9223372036854775808 ≤ z) (hhi : z < 9223372036854775808) :
    u64ToI64 (leToNat (i64ToLE z)) = z := by
  have hmod : z % 18446744073709551616 = z ∨
      z % 18446744073709551616 = z + 18446744073709551616 := by omega
  have hnn : 0 ≤ z % 18446744073709551616 := by omega
  have hub : z % 18446744073709551616 < 18446744073709551616 := by omega
  have htn : ((z % 18446744073709551616).toNat : Int) = z % 18446744073709551616 :=
    Int.toNat_of_nonneg hnn
  have hlt : (z % 18446744073709551616).toNat < 18446744073709551616 := by omega
  unfold i64ToLE
  rw [leToNat_u64ToLE hlt]
  unfold u64ToI64
  rcases hmod with hm | hm
  · rw [if_pos (by omega)]
    omega
  · rw [if_neg (by omega)]
    omega

theorem u32ToI32_i32 {z : Int}
    (hlo : -2147483648 ≤ z) (hhi : z < 2147483648) :
    u32ToI32 (leToNat (i32ToLE z)) = z := by
  have hmod : z % 4294967296 = z ∨ z % 4294967296 = z + 4294967296 := by omega
  have hnn : 0 ≤ z % 4294967296 := by omega
  have hlt : (z % 4294967296).toNat < 4294967296 := by omega
  unfold i32ToLE
  rw [leToNat_u32ToLE hlt]
  unfold u32ToI32
  rcases hmod with hm | hm
  · rw [if_pos (by omega)]
    omega
  · rw [if_neg (by omega)]
    omega

theorem i64ToLE_length (z : Int) : (i64ToLE z).length = 8 := rfl

theorem i32ToLE_length (z : Int) : (i32ToLE z).length = 4 := rfl

/-! ## SHA-256

The wire envelope's checksum is the first four bytes of a double SHA-256 of
the payload (Bitcoin's `sha256d`).  The implementation below follows
FIPS 180-4 over byte lists; it is used purely computationally. -/

/-- Right-rotation of a 32-bit word. -/
def rotr32 (n x : Nat) : Nat :=
  (x / 2 ^ n + x % 2 ^ n * 2 ^ (32 - n)) % 4294967296

/-- Right-shift of a 32-bit word. -/
def shr32 (n x : Nat) : Nat := x / 2 ^ n

/-- Bitwise complement within 32 bits. -/
def not32 (x : Nat) : Nat := x ^^^ 4294967295

def sha256Ch (x y z : Nat) : Nat := (x &&& y) ^^^ (not32 x &&& z)

def sha256Maj (x y z : Nat) : Nat := (x &&& y) ^^^ (x &&& z) ^^^ (y &&& z)

def sha256S0 (x : Nat) : Nat := rotr32 2 x ^^^ rotr32 13 x ^^^ rotr32 22 x

def sha256S1 (x : Nat) : Nat := rotr32 6 x ^^^ rotr32 11 x ^^^ rotr32 25 x

def sha256s0 (x : Nat) : Nat := rotr32 7 x ^^^ rotr32 18 x ^^^ shr32 3 x

def sha256s1 (x : Nat) : Nat := rotr32 17 x ^^^ rotr32 19 x ^^^ shr32 10 x

/-- The 64 SHA-256 round constants. -/
def sha256K : List Nat :=
  [1116352408, 1899447441, 3049323471, 3921009573,
   961987163, 1508970993, 2453635748, 2870763221,
   3624381080, 310598401, 607225278, 1426881987,
   1925078388, 2162078206, 2614888103, 3248222580,
   3835390401, 4022224774, 264347078, 604807628,
   770255983, 1249150122, 1555081692, 1996064986,
   2554220882, 2821834349, 2952996808, 3210313671,
   3336571891, 3584528711, 113926993, 338241895,
   666307205, 773529912, 1294757372, 1396182291,
   1695183700, 1986661051, 2177026350, 2456956037,
   2730485921, 2820302411, 3259730800, 3345764771,
   3516065817, 3600352804, 4094571909, 275423344,
   430227734, 506948616, 659060556, 883997877,
   958139571, 1322822218, 1537002063, 1747873779,
   1955562222, 2024104815, 2227730452, 2361852424,
   2428436474, 2756734187, 3204031479, 3329325298]

/-- The SHA-256 initial hash state. -/
def sha256Init : List Nat :=
  [1779033703, 3144134277, 1013904242, 2773480762,
   1359893119, 2600822924, 528734635, 1541459225]

/-- Parse a byte list into big-endian 32-bit words (groups of four bytes). -/
def bytesToWordsBE : List Nat → List Nat
  | a :: b :: c :: d :: rest => beToNat [a, b, c, d] :: bytesToWordsBE rest
  | _ => []

/-- Extend the 16 words of a block to the 64-entry message schedule. -/
def sha256Extend (ws : List Nat) : List Nat :=
  (List.range 48).foldl
    (fun acc _ =>
      let t := acc.length
      let w16 := acc.getD (t - 16) 0
      let w15 := acc.getD (t - 15) 0
      let w7 := acc.getD (t - 7) 0
      let w2 := acc.getD (t - 2) 0
      acc ++ [(sha256s1 w2 + w7 + sha256s0 w15 + w16) % 4294967296])
    ws

/-- One SHA-256 compression round: fold the working state over `(Kt, Wt)`. -/
def sha256Round (st : List Nat) (kw : Nat × Nat) : List Nat :=
  match st with
  | [a, b, c, d, e, f, g, h] =>
    let t1 := (h + sha256S1 e + sha256Ch e f g + kw.1 + kw.2) % 4294967296
    let t2 := (sha256S0 a + sha256Maj a b c) % 4294967296
    [(t1 + t2) % 4294967296, a, b, c, (d + t1) % 4294967296, e, f, g]
  | other => other

/-- Compress one 64-byte block into the running hash state. -/
def sha256Block (st : List Nat) (block : List Nat) : List Nat :=
  let ws := sha256Extend (bytesToWordsBE block)
  let out := (sha256K.zip ws).foldl sha256Round st
  match st, out with
  | [h0, h1, h2, h3, h4, h5, h6, h7], [a, b, c, d, e, f, g, h] =>
    [(h0 + a) % 4294967296, (h1 + b) % 4294967296, (h2 + c) % 4294967296,
     (h3 + d) % 4294967296, (h4 + e) % 4294967296, (h5 + f) % 4294967296,
     (h6 + g) % 4294967296, (h7 + h) % 4294967296]
  | _, _ => st

/-- Merkle–Damgard padding: `0x80`, zeros to 56 mod 64, 8-byte bit length. -/
def sha256Pad (msg : List Nat) : List Nat :=
  let l := msg.length
  msg ++ [128] ++ List.replicate ((119 - l % 64) % 64) 0 ++
    u64ToBE (8 * l % 18446744073709551616)

/-- Split a byte list into 64-byte chunks (fuel-driven so that it reduces
definitionally; the fuel is the list length, which always suffices). -/
def chunks64Go : Nat → List Nat → List (List Nat)
  | 0, _ => []
  | _, [] => []
  | fuel + 1, b :: t => (b :: t).take 64 :: chunks64Go fuel ((b :: t).drop 64)

/-- Split a byte list into 64-byte chunks. -/
def chunks64 (l : List Nat) : List (List Nat) := chunks64Go l.length l

/-- Serialise the final hash state into the 32-byte digest. -/
def sha256Digest (st : List Nat) : List Nat :=
  match st with
  | [a, b, c, d, e, f, g, h] =>
    u32ToBE a ++ u32ToBE b ++ u32ToBE c ++ u32ToBE d ++
    u32ToBE e ++ u32ToBE f ++ u32ToBE g ++ u32ToBE h
  | _ => List.replicate 32 0

/-- SHA-256 of a byte list. -/
def sha256 (msg : List Nat) : List Nat :=
  sha256Digest ((chunks64 (sha256Pad msg)).foldl sha256Block sha256Init)

/-- Bitcoin's double SHA-256. -/
def sha256d (msg : List Nat) : List Nat := sha256 (sha256 msg)

theorem sha256Digest_length (st : List Nat) : (sha256Digest st).length = 32 := by
  unfold sha256Digest
  split <;> simp [u32ToBE]

theorem sha256_length (msg : List Nat) : (sha256 msg).length = 32 :=
  sha256Digest_length _

/-- Sanity check against the FIPS 180-4 test vector for the empty message. -/
example : sha256 [] =
    [227, 176, 196, 66, 152, 252, 28, 20,
     154, 251, 244, 200, 153, 111, 185, 36,
     39, 174, 65, 228, 100, 155, 147, 76,
     164, 149, 153, 27, 120, 82, 184, 85] := by decide

/-! ## Data model: addresses and messages -/

/-- An IP address (`std::net::IpAddr`): four `u8` octets or eight `u16`
segments. -/
inductive IpAddr where
  | v4 (a b c d : Nat)
  | v6 (s0 s1 s2 s3 s4 s5 s6 s7 : Nat)
deriving DecidableEq

/-- Rust's `std::net::SocketAddr`: an IP address plus a port. -/
structure SocketAddr where
  ip : IpAddr
  port : Nat
deriving DecidableEq

/-- Range conditions making the `Nat` fields genuine `u8` / `u16` values. -/
def IpAddr.wfb : IpAddr → Bool
  | .v4 a b c d => a < 256 && b < 256 && c < 256 && d < 256
  | .v6 s0 s1 s2 s3 s4 s5 s6 s7 =>
    s0 < 65536 && s1 < 65536 && s2 < 65536 && s3 < 65536 &&
    s4 < 65536 && s5 < 65536 && s6 < 65536 && s7 < 65536

/-- A well-formed socket address: in-range IP components and port. -/
def SocketAddr.wfb (sa : SocketAddr) : Bool :=
  sa.ip.wfb && sa.port < 65536

/-- The wire-format network address (`bitcoin::network::Address`): service
flags, eight 16-bit address segments, and a port. -/
structure Address where
  services : Nat
  address : List Nat
  port : Nat
deriving DecidableEq

/-- The eight 16-bit segments of an IP address; a v4 address maps to the
IPv4-mapped IPv6 form `::ffff:a.b.c.d`. -/
def IpAddr.segments : IpAddr → List Nat
  | .v4 a b c d => [0, 0, 0, 0, 0, 65535, a * 256 + b, c * 256 + d]
  | .v6 s0 s1 s2 s3 s4 s5 s6 s7 => [s0, s1, s2, s3, s4, s5, s6, s7]

/-- Mirror of `Address::new(socket_addr, services)`: the segment form of the address
together with the advertised service flags. -/
def Address.new (sa : SocketAddr) (services : Nat) : Address :=
  { services := services, address := sa.ip.segments, port := sa.port }

/-- Mirror of `bitcoin::network::message_network::VersionMessage`, restricted to the
fields the version payload carries on the wire (spec §6). -/
structure VersionMessage where
  version : Nat
  services : Nat
  timestamp : Int
  receiver : Address
  sender : Address
  nonce : Nat
  user_agent : List Nat
  start_height : Int
deriving DecidableEq

/-- The two handshake wire messages (spec §2: Version, Acknowledgment). -/
inductive NetworkMessage where
  | version (vm : VersionMessage)
  | verack
deriving DecidableEq

/-! ## Constants -/

/-- Modelled from the spec: `src/constants.rs` is not among the provided
sources; §4.2 says the protocol version is a module-level constant.  Every
claim below is insensitive to the concrete value (any value below `2^32`
behaves identically), so the customary Bitcoin value is used. -/
def PROTOCOL_VERSION : Nat := 70001

/-- Value of `bitcoin::Network::Bitcoin.magic()`: the mainnet network magic. -/
def BITCOIN_MAGIC : Nat := 0xD9B4BEF9

/-- Value of `ServiceFlags::NONE` (the "none advertised" value, spec §4.2). -/
def SERVICES_NONE : Nat := 0

/-- The fixed user-agent string of `new_version_message`, as bytes. -/
def USER_AGENT : List Nat :=
  "user-agent-bitcoin-p2p-handshake".toList.map Char.toNat

/-- Constant `DEFAULT_PORT_MAINNET` from `src/dns_seed_mananger.rs`. -/
def DEFAULT_PORT_MAINNET : Nat := 8333

/-! ## Serialisation (spec §6 wire format)

Modelled from the spec: the Rust code delegates serialisation and parsing to
the external `bitcoin` crate (`bitcoin::consensus`), whose sources are not
part of this repository.  The definitions below follow the byte-exact
envelope and payload layout given in spec §6. -/

/-- Two-byte little-endian encoding of a `u16` (VarInt medium form). -/
def u16ToLE (n : Nat) : List Nat := [n % 256, n / 256 % 256]

/-- Encode 16-bit address segments big-endian, in order. -/
def encodeSegs : List Nat → List Nat
  | [] => []
  | s :: t => u16ToBE s ++ encodeSegs t

/-- Encode a network address: services, segments, port (spec §6:
"services+IP+port, fixed encoding"). -/
def encodeAddress (a : Address) : List Nat :=
  u64ToLE a.services ++ encodeSegs a.address ++ u16ToBE a.port

/-- Bitcoin's variable-length integer encoding. -/
def encodeVarInt (n : Nat) : List Nat :=
  if n < 253 then [n]
  else if n < 65536 then 253 :: u16ToLE n
  else if n < 4294967296 then 254 :: u32ToLE n
  else 255 :: u64ToLE n

/-- A length-prefixed string (spec §6: "user-agent(length-prefixed
string)"). -/
def encodeVarStr (s : List Nat) : List Nat := encodeVarInt s.length ++ s

/-- The version payload fields, in the order of spec §6. -/
def encodeVersionPayload (vm : VersionMessage) : List Nat :=
  u32ToLE vm.version ++ u64ToLE vm.services ++ i64ToLE vm.timestamp ++
  encodeAddress vm.receiver ++ encodeAddress vm.sender ++
  u64ToLE vm.nonce ++ encodeVarStr vm.user_agent ++ i32ToLE vm.start_height

/-- The ASCII command name of a message. -/
def commandBytes : NetworkMessage → List Nat
  | .version _ => [118, 101, 114, 115, 105, 111, 110]
  | .verack => [118, 101, 114, 97, 99, 107]

/-- The payload bytes of a message (the acknowledgment payload is empty,
spec §3). -/
def encodePayload : NetworkMessage → List Nat
  | .version vm => encodeVersionPayload vm
  | .verack => []

/-- NUL-pad a command name to the fixed 12-byte field. -/
def padCommand (c : List Nat) : List Nat :=
  c ++ List.replicate (12 - c.length) 0

/-- Serialise a message into the wire envelope (spec §6): magic, 12-byte
command, payload length, 4-byte `sha256d` checksum, payload. -/
def serializeRawNetworkMessage (magic : Nat) (m : NetworkMessage) : List Nat :=
  let p := encodePayload m
  u32ToLE magic ++ padCommand (commandBytes m) ++ u32ToLE p.length ++
  (sha256d p).take 4 ++ p

/-! ## `src/network_messages.rs` -/

/-- Mirror of `new_version_message`: builds the local Version message.  The wall-clock
timestamp and the random nonce, the only non-deterministic inputs, are
passed explicitly. -/
def new_version_message (local_peer remote_peer : SocketAddr)
    (timestamp : Int) (nonce : Nat) : Nat × NetworkMessage :=
  let receiver := Address.new remote_peer SERVICES_NONE
  let sender := Address.new local_peer SERVICES_NONE
  let user_agent := USER_AGENT
  let start_height : Int := 0
  let message : VersionMessage :=
    { version := PROTOCOL_VERSION, services := SERVICES_NONE,
      timestamp := timestamp, receiver := receiver, sender := sender,
      nonce := nonce, user_agent := user_agent, start_height := start_height }
  (message.version, NetworkMessage.version message)

/-- Mirror of `new_version_message_serialised`: the version tuple with the message
wrapped in a mainnet envelope and serialised. -/
def new_version_message_serialised (local_peer remote_peer : SocketAddr)
    (timestamp : Int) (nonce : Nat) : Nat × List Nat :=
  let tup := new_version_message local_peer remote_peer timestamp nonce
  (tup.1, serializeRawNetworkMessage BITCOIN_MAGIC tup.2)

/-- Mirror of `make_verack_message_serialised`: the serialised mainnet VerAck
envelope. -/
def make_verack_message_serialised : List Nat :=
  serializeRawNetworkMessage BITCOIN_MAGIC NetworkMessage.verack

/-! ## Parsing (spec §4.2 `parseNext`) -/

/-- Decode errors of `parseNext` (spec §4.2, §7 `DecodeError`): truncation,
bad magic, bad checksum, unrecognised command, undecodable payload. -/
inductive DecodeErr where
  | truncated
  | badMagic
  | badChecksum
  | unknownCommand
  | badPayload
deriving DecidableEq

/-- Read a little-endian `u32`. -/
def parseU32 (s : List Nat) : Option (Nat × List Nat) :=
  match readBytes 4 s with
  | some (bs, r) => some (leToNat bs, r)
  | none => none

/-- Read a little-endian `u64`. -/
def parseU64 (s : List Nat) : Option (Nat × List Nat) :=
  match readBytes 8 s with
  | some (bs, r) => some (leToNat bs, r)
  | none => none

/-- Read a big-endian `u16`. -/
def parseU16BE (s : List Nat) : Option (Nat × List Nat) :=
  match readBytes 2 s with
  | some (bs, r) => some (beToNat bs, r)
  | none => none

/-- Read a little-endian two's-complement `i64`. -/
def parseI64 (s : List Nat) : Option (Int × List Nat) :=
  match parseU64 s with
  | some (n, r) => some (u64ToI64 n, r)
  | none => none

/-- Read a little-endian two's-complement `i32`. -/
def parseI32 (s : List Nat) : Option (Int × List Nat) :=
  match parseU32 s with
  | some (n, r) => some (u32ToI32 n, r)
  | none => none

/-- Read `n` big-endian 16-bit segments. -/
def parseSegs : Nat → List Nat → Option (List Nat × List Nat)
  | 0, s => some ([], s)
  | n + 1, s =>
    match parseU16BE s with
    | some (seg, r) =>
      match parseSegs n r with
      | some (segs, r2) => some (seg :: segs, r2)
      | none => none
    | none => none

/-- Read a network address: services, eight segments, port. -/
def parseAddress (s : List Nat) : Option (Address × List Nat) :=
  match parseU64 s with
  | some (services, r1) =>
    match parseSegs 8 r1 with
    | some (segs, r2) =>
      match parseU16BE r2 with
      | some (port, r3) =>
        some ({ services := services, address := segs, port := port }, r3)
      | none => none
    | none => none
  | none => none

/-- Read a Bitcoin variable-length integer. -/
def parseVarInt (s : List Nat) : Option (Nat × List Nat) :=
  match s with
  | [] => none
  | b :: r =>
    if b < 253 then some (b, r)
    else if b = 253 then
      match readBytes 2 r with
      | some (bs, r2) => some (leToNat bs, r2)
      | none => none
    else if b = 254 then
      match readBytes 4 r with
      | some (bs, r2) => some (leToNat bs, r2)
      | none => none
    else
      match readBytes 8 r with
      | some (bs, r2) => some (leToNat bs, r2)
      | none => none

/-- Read a length-prefixed string. -/
def parseVarStr (s : List Nat) : Option (List Nat × List Nat) :=
  match parseVarInt s with
  | some (n, r) => readBytes n r
  | none => none

/-- Decode a version payload, field by field in the order of spec §6. -/
def decodeVersionPayload (p : List Nat) : Option VersionMessage :=
  match parseU32 p with
  | none => none
  | some (version, p1) =>
    match parseU64 p1 with
    | none => none
    | some (services, p2) =>
      match parseI64 p2 with
      | none => none
      | some (timestamp, p3) =>
        match parseAddress p3 with
        | none => none
        | some (receiver, p4) =>
          match parseAddress p4 with
          | none => none
          | some (sender, p5) =>
            match parseU64 p5 with
            | none => none
            | some (nonce, p6) =>
              match parseVarStr p6 with
              | none => none
              | some (user_agent, p7) =>
                match parseI32 p7 with
                | none => none
                | some (start_height, _) =>
                  some { version := version, services := services,
                         timestamp := timestamp, receiver := receiver,
                         sender := sender, nonce := nonce,
                         user_agent := user_agent,
                         start_height := start_height }

/-- Strip the NUL padding from a 12-byte command field. -/
def unpadCommand (c : List Nat) : List Nat :=
  (c.reverse.dropWhile (· = 0)).reverse

/-- Modelled from the spec: `parseNext(byteStream)` (§4.2).  Reads one
envelope: validates magic and checksum, then decodes the payload according
to the command name; unrecognised commands and checksum mismatches fail with
a `DecodeErr`, truncation with `DecodeErr.truncated`.  The Rust code
delegates this to `RawNetworkMessage::consensus_decode` of the external
`bitcoin` crate. -/
def parseNext (s : List Nat) :
    Except DecodeErr (List Nat × NetworkMessage × List Nat) :=
  match readBytes 4 s with
  | none => .error .truncated
  | some (mb, s1) =>
    if leToNat mb ≠ BITCOIN_MAGIC then .error .badMagic
    else
      match readBytes 12 s1 with
      | none => .error .truncated
      | some (cb, s2) =>
        match readBytes 4 s2 with
        | none => .error .truncated
        | some (lb, s3) =>
          match readBytes 4 s3 with
          | none => .error .truncated
          | some (kb, s4) =>
            match readBytes (leToNat lb) s4 with
            | none => .error .truncated
            | some (p, rest) =>
              if (sha256d p).take 4 ≠ kb then .error .badChecksum
              else
                let cmd := unpadCommand cb
                if cmd = [118, 101, 114, 115, 105, 111, 110] then
                  match decodeVersionPayload p with
                  | some vm => .ok (cmd, NetworkMessage.version vm, rest)
                  | none => .error .badPayload
                else if cmd = [118, 101, 114, 97, 99, 107] then
                  .ok (cmd, NetworkMessage.verack, rest)
                else .error .unknownCommand

/-! ## Round-trip lemmas for the field codecs -/

theorem readBytes_exact (xs : List Nat) :
    readBytes xs.length xs = some (xs, []) := by
  simpa using readBytes_append xs []

theorem parseU32_u32ToLE {n : Nat} (r : List Nat) (h : n < 4294967296) :
    parseU32 (u32ToLE n ++ r) = some (n, r) := by
  unfold parseU32
  rw [readBytes_of_length _ _ (u32ToLE_length n)]
  simp [leToNat_u32ToLE h]

theorem parseU64_u64ToLE {n : Nat} (r : List Nat) (h : n < 18446744073709551616) :
    parseU64 (u64ToLE n ++ r) = some (n, r) := by
  unfold parseU64
  rw [readBytes_of_length _ _ (u64ToLE_length n)]
  simp [leToNat_u64ToLE h]

theorem parseU16BE_u16ToBE {n : Nat} (r : List Nat) (h : n < 65536) :
    parseU16BE (u16ToBE n ++ r) = some (n, r) := by
  unfold parseU16BE
  rw [readBytes_of_length _ _ (u16ToBE_length n)]
  simp [beToNat_u16ToBE h]

theorem parseI64_i64ToLE {z : Int} (r : List Nat)
    (hlo : -9223372036854775808 ≤ z) (hhi : z < 9223372036854775808) :
    parseI64 (i64ToLE z ++ r) = some (z, r) := by
  have hlt : (z % 18446744073709551616).toNat < 18446744073709551616 := by omega
  have hz : u64ToI64 (z % 18446744073709551616).toNat = z := by
    have := u64ToI64_i64 hlo hhi
    unfold i64ToLE at this
    rwa [leToNat_u64ToLE hlt] at this
  unfold parseI64 i64ToLE
  rw [parseU64_u64ToLE r hlt]
  simp [hz]

theorem parseI32_i32ToLE {z : Int} (r : List Nat)
    (hlo : -2147483648 ≤ z) (hhi : z < 2147483648) :
    parseI32 (i32ToLE z ++ r) = some (z, r) := by
  have hlt : (z % 4294967296).toNat < 4294967296 := by omega
  have hz : u32ToI32 (z % 4294967296).toNat = z := by
    have := u32ToI32_i32 hlo hhi
    unfold i32ToLE at this
    rwa [leToNat_u32ToLE hlt] at this
  unfold parseI32 i32ToLE
  rw [parseU32_u32ToLE r hlt]
  simp [hz]

theorem parseSegs_encodeSegs (segs : List Nat) (r : List Nat)
    (h : ∀ s ∈ segs, s < 65536) :
    parseSegs segs.length (encodeSegs segs ++ r) = some (segs, r) := by
  induction segs generalizing r with
  | nil => rfl
  | cons s t ih =>
    have hs : s < 65536 := h s (List.mem_cons_self s t)
    have ht : ∀ x ∈ t, x < 65536 := fun x hx => h x (List.mem_cons_of_mem s hx)
    simp only [encodeSegs, List.length_cons, List.append_assoc]
    simp only [parseSegs, parseU16BE_u16ToBE _ hs, ih r ht]

theorem parseAddress_encodeAddress (a : Address) (r : List Nat)
    (hsvc : a.services < 18446744073709551616)
    (hlen : a.address.length = 8)
    (hsegs : ∀ s ∈ a.address, s < 65536)
    (hport : a.port < 65536) :
    parseAddress (encodeAddress a ++ r) = some (a, r) := by
  unfold parseAddress encodeAddress
  rw [List.append_assoc, List.append_assoc, ← hlen]
  simp only [parseU64_u64ToLE _ hsvc, parseSegs_encodeSegs a.address _ hsegs,
             parseU16BE_u16ToBE _ hport]

theorem parseVarStr_encodeVarStr (s : List Nat) (r : List Nat)
    (h : s.length < 253) :
    parseVarStr (encodeVarStr s ++ r) = some (s, r) := by
  unfold parseVarStr encodeVarStr encodeVarInt parseVarInt
  rw [if_pos h]
  simp only [List.cons_append, List.nil_append]
  rw [if_pos h]
  exact readBytes_append s r

theorem decodeVersionPayload_encode (vm : VersionMessage) (extra : List Nat)
    (hver : vm.version < 4294967296)
    (hsvc : vm.services < 18446744073709551616)
    (htlo : -9223372036854775808 ≤ vm.timestamp)
    (hthi : vm.timestamp < 9223372036854775808)
    (hrsvc : vm.receiver.services < 18446744073709551616)
    (hrlen : vm.receiver.address.length = 8)
    (hrsegs : ∀ s ∈ vm.receiver.address, s < 65536)
    (hrport : vm.receiver.port < 65536)
    (hssvc : vm.sender.services < 18446744073709551616)
    (hslen : vm.sender.address.length = 8)
    (hssegs : ∀ s ∈ vm.sender.address, s < 65536)
    (hsport : vm.sender.port < 65536)
    (hnonce : vm.nonce < 18446744073709551616)
    (hua : vm.user_agent.length < 253)
    (hshlo : -2147483648 ≤ vm.start_height)
    (hshhi : vm.start_height < 2147483648) :
    decodeVersionPayload (encodeVersionPayload vm ++ extra) = some vm := by
  unfold decodeVersionPayload encodeVersionPayload
  simp only [List.append_assoc]
  simp only [parseU32_u32ToLE _ hver,
             parseU64_u64ToLE _ hsvc,
             parseI64_i64ToLE _ htlo hthi,
             parseAddress_encodeAddress _ _ hrsvc hrlen hrsegs hrport,
             parseAddress_encodeAddress _ _ hssvc hslen hssegs hsport,
             parseU64_u64ToLE _ hnonce,
             parseVarStr_encodeVarStr _ _ hua,
             parseI32_i32ToLE _ hshlo hshhi]

/-! ## Envelope round trip -/

theorem encodeSegs_length (l : List Nat) :
    (encodeSegs l).length = 2 * l.length := by
  induction l with
  | nil => rfl
  | cons s t ih => simp [encodeSegs, u16ToBE, ih]; omega

theorem encodeAddress_length (a : Address) (h : a.address.length = 8) :
    (encodeAddress a).length = 26 := by
  simp [encodeAddress, u64ToLE, u16ToBE, encodeSegs_length, h]

theorem encodeVersionPayload_length (vm : VersionMessage)
    (hrlen : vm.receiver.address.length = 8)
    (hslen : vm.sender.address.length = 8)
    (hua : vm.user_agent.length < 253) :
    (encodeVersionPayload vm).length = 85 + vm.user_agent.length := by
  simp [encodeVersionPayload, u32ToLE, u64ToLE, i64ToLE, i32ToLE,
        encodeAddress_length _ hrlen, encodeAddress_length _ hslen,
        encodeVarStr, encodeVarInt, if_pos hua]
  omega

theorem sha256dTake4_length (p : List Nat) :
    ((sha256d p).take 4).length = 4 := by
  simp [List.length_take, sha256d, sha256_length]

theorem parseNext_serialize_version (vm : VersionMessage)
    (hver : vm.version < 4294967296)
    (hsvc : vm.services < 18446744073709551616)
    (htlo : -9223372036854775808 ≤ vm.timestamp)
    (hthi : vm.timestamp < 9223372036854775808)
    (hrsvc : vm.receiver.services < 18446744073709551616)
    (hrlen : vm.receiver.address.length = 8)
    (hrsegs : ∀ s ∈ vm.receiver.address, s < 65536)
    (hrport : vm.receiver.port < 65536)
    (hssvc : vm.sender.services < 18446744073709551616)
    (hslen : vm.sender.address.length = 8)
    (hssegs : ∀ s ∈ vm.sender.address, s < 65536)
    (hsport : vm.sender.port < 65536)
    (hnonce : vm.nonce < 18446744073709551616)
    (hua : vm.user_agent.length < 253)
    (hshlo : -2147483648 ≤ vm.start_height)
    (hshhi : vm.start_height < 2147483648) :
    parseNext (serializeRawNetworkMessage BITCOIN_MAGIC (.version vm)) =
      .ok ([118, 101, 114, 115, 105, 111, 110], NetworkMessage.version vm, []) := by
  have hplen : (encodeVersionPayload vm).length < 4294967296 := by
    rw [encodeVersionPayload_length vm hrlen hslen hua]; omega
  have hpad : padCommand [118, 101, 114, 115, 105, 111, 110] =
      [118, 101, 114, 115, 105, 111, 110, 0, 0, 0, 0, 0] := rfl
  have hcmd : unpadCommand [118, 101, 114, 115, 105, 111, 110, 0, 0, 0, 0, 0] =
      [118, 101, 114, 115, 105, 111, 110] := rfl
  have hdec : decodeVersionPayload (encodeVersionPayload vm) = some vm := by
    have := decodeVersionPayload_encode vm [] hver hsvc htlo hthi hrsvc hrlen
      hrsegs hrport hssvc hslen hssegs hsport hnonce hua hshlo hshhi
    simpa using this
  unfold serializeRawNetworkMessage parseNext
  simp only [encodePayload, commandBytes, hpad, List.append_assoc]
  rw [readBytes_of_length _ _ (u32ToLE_length _)]
  simp only []
  rw [if_neg (show ¬(leToNat (u32ToLE BITCOIN_MAGIC) ≠ BITCOIN_MAGIC) by decide)]
  rw [readBytes_of_length _ _
      (show ([118, 101, 114, 115, 105, 111, 110, 0, 0, 0, 0, 0] : List Nat).length = 12 from rfl)]
  simp only []
  rw [readBytes_of_length _ _ (u32ToLE_length _)]
  simp only []
  rw [readBytes_of_length _ _ (sha256dTake4_length _)]
  simp only []
  rw [leToNat_u32ToLE hplen, readBytes_exact]
  simp only []
  rw [if_neg (show ¬(List.take 4 (sha256d (encodeVersionPayload vm)) ≠
      List.take 4 (sha256d (encodeVersionPayload vm))) from fun hne => hne rfl)]
  rw [if_pos (show unpadCommand [118, 101, 114, 115, 105, 111, 110, 0, 0, 0, 0, 0] =
      [118, 101, 114, 115, 105, 111, 110] from rfl)]
  rw [hdec]
  simp only [hcmd]

/-! ## `error_stack` reports

The Rust code reports failures through `error_stack::Report`: a report is
created from a root context (`Report::new` / `IntoReport::into_report`),
accumulates printable attachments, and `change_context` pushes a new
current context while keeping the previous frames.  The *current context*
is the type a caller can match on; the frames are opaque diagnostic
payload. -/

/-- The context types appearing in the repository's reports. -/
inductive ErrCtx where
  | ioError
  | decodeError
  | elapsedError
  | joinError
  | dnsLookupError
  | handshakeError
  | handshakeThreadError
  | handshakeMessageExchangeError
  | handshakeMessageWrongProtocolError
  | handshakeMessageVerAckError
deriving DecidableEq

/-- One report frame: an attached context marker or a printable message. -/
inductive Frame where
  | context (c : ErrCtx)
  | printable (s : String)
deriving DecidableEq

/-- An `error_stack::Report`: current context plus the frame stack. -/
structure Report where
  context : ErrCtx
  frames : List Frame
deriving DecidableEq

/-- Mirror of `Report::new(c)`. -/
def Report.new (c : ErrCtx) : Report :=
  { context := c, frames := [Frame.context c] }

/-- Mirror of `report.attach_printable(s)` (the static part of the message). -/
def Report.attach_printable (r : Report) (s : String) : Report :=
  { r with frames := Frame.printable s :: r.frames }

/-- Mirror of `report.change_context(c)`. -/
def Report.change_context (r : Report) (c : ErrCtx) : Report :=
  { context := c, frames := Frame.context c :: r.frames }

/-- Mirror of `err.into_report()`: a fresh report rooted at the error's context. -/
def intoReport (c : ErrCtx) : Report := Report.new c

/-! ## `src/dns_seed_mananger.rs` -/

/-- Constant `DEFAULT_DNS_SEEDS`: the fixed table of nine seed hostnames. -/
def DEFAULT_DNS_SEEDS : List String :=
  ["seed.bitcoin.sipa.be.",
   "dnsseed.bluematt.me.",
   "dnsseed.bitcoin.dashjr.org.",
   "seed.bitcoinstats.com.",
   "seed.bitcoin.jonasschnelli.ch.",
   "seed.btc.petertodd.org.",
   "seed.bitcoin.sprovoost.nl.",
   "dnsseed.emzy.de.",
   "seed.bitcoin.wiz.biz."]

/-- Mirror of `DnsSeedManager`: the list of resolved addresses of active nodes. -/
structure DnsSeedManager where
  active_nodes : List SocketAddr
deriving DecidableEq

/-- Mirror of `DnsSeedManager::new()`. -/
def DnsSeedManager.new : DnsSeedManager := { active_nodes := [] }

/-- Mirror of `DnsSeedManager::default_dns_seeds()`. -/
def default_dns_seeds : List String := DEFAULT_DNS_SEEDS

/-- Mirror of `DnsSeedManager::dns_seed_at_index(i)`: `DEFAULT_DNS_SEEDS.get(i)`. -/
def dns_seed_at_index (i : Nat) : Option String :=
  DEFAULT_DNS_SEEDS.get? i

/-- Mirror of `DnsSeedManager::get(i)`: address of an active node by index. -/
def DnsSeedManager.get (dsm : DnsSeedManager) (i : Nat) : Option SocketAddr :=
  dsm.active_nodes.get? i

/-- A DNS resolver oracle: for a hostname and port, either the address list
the system resolver returns or a resolution failure.  This stands for
`ToSocketAddrs::to_socket_addrs` / `tokio::net::lookup_host`. -/
def DnsResolver : Type := String → Nat → Except Unit (List SocketAddr)

/-- Mirror of `DnsSeedManager::lookup_active_nodes(dns, port)`: iterate the hostnames,
extend the accumulator with each successful resolution, silently skip
failures. -/
def lookup_active_nodes (resolve : DnsResolver) (dns : List String)
    (port : Nat) : List SocketAddr :=
  dns.foldl
    (fun v d =>
      match resolve d port with
      | .ok sa => v ++ sa
      | .error _ => v)
    []

/-- Mirror of `DnsSeedManager::new_with_dns(dns)`: resolve one hostname at the default
mainnet port; a resolver failure is reported as a `DnsLookupError`. -/
def new_with_dns (resolve : DnsResolver) (dns : String) :
    Except Report DnsSeedManager :=
  let dsm := DnsSeedManager.new
  match resolve dns DEFAULT_PORT_MAINNET with
  | .error _ =>
    .error (((intoReport .ioError).attach_printable
      "Failed to lookup dns seeds by URL").change_context .dnsLookupError)
  | .ok seeds => .ok { active_nodes := dsm.active_nodes ++ seeds }

/-- Mirror of `DnsSeedManager::new_with_dns_index(i)`. -/
def new_with_dns_index (resolve : DnsResolver) (i : Nat) :
    Except Report DnsSeedManager :=
  match dns_seed_at_index i with
  | none => .error ((Report.new .dnsLookupError).attach_printable "Bad DNS seed index")
  | some dns_url => new_with_dns resolve dns_url

/-- Mirror of `DnsSeedManager::default()`: resolve the whole default table. -/
def DnsSeedManager.defaultDsm (resolve : DnsResolver) : DnsSeedManager :=
  { active_nodes := lookup_active_nodes resolve DEFAULT_DNS_SEEDS DEFAULT_PORT_MAINNET }

/-! ## `src/handshake_manager.rs` -/

/-- The payload shapes `exec_handshake` distinguishes when matching a
decoded message: a Version message (carrying its version number), a VerAck,
or any other message kind (`_` in the Rust matches). -/
inductive HsMessage where
  | version (version : Nat)
  | verack
  | other
deriving DecidableEq

/-- The I/O oracle for one `exec_handshake` run: the outcome of each
fallible call, in the exact order the Rust code performs them, plus the
ambient wall clock and RNG draw consumed when building the local Version
message. -/
structure ExecEnv where
  connect : Except Unit Unit
  try_clone : Except Unit Unit
  local_addr : Except Unit SocketAddr
  peer_addr : Except Unit SocketAddr
  timestamp : Int
  nonce : Nat
  write_version : Except Unit Unit
  read_first : Except Unit HsMessage
  write_verack : Except Unit Unit
  read_second : Except Unit HsMessage

/-- Mirror of `exec_handshake(remote)`: connect, send Version, read an envelope that
must be a Version, send VerAck, read an envelope that must be a VerAck;
any failure exits early with a report whose current context is
`HandshakeMessageExchangeError`, wrong message types additionally carrying
the `WrongProtocol` / `VerAck` context frames. -/
def exec_handshake (env : ExecEnv) : Except Report Bool :=
  match env.connect with
  | .error _ =>
    .error ((Report.new .handshakeMessageExchangeError).attach_printable
      "Failed to connect to node")
  | .ok _ =>
    match env.try_clone with
    | .error _ =>
      .error (((intoReport .ioError).attach_printable
        "Failed to clone handshake stream").change_context
        .handshakeMessageExchangeError)
    | .ok _ =>
      match env.local_addr with
      | .error _ =>
        .error (((intoReport .ioError).attach_printable
          "Failed to return local half of the TCP connection").change_context
          .handshakeMessageExchangeError)
      | .ok local_peer =>
        match env.peer_addr with
        | .error _ =>
          .error (((intoReport .ioError).attach_printable
            "Failed to return remote half of the TCP connection").change_context
            .handshakeMessageExchangeError)
        | .ok remote_peer =>
          let _version_message_bytes :=
            new_version_message_serialised local_peer remote_peer
              env.timestamp env.nonce
          match env.write_version with
          | .error _ =>
            .error (((intoReport .ioError).attach_printable
              "Failed to send Version message").change_context
              .handshakeMessageExchangeError)
          | .ok _ =>
            match env.read_first with
            | .error _ =>
              .error (((intoReport .decodeError).attach_printable
                "Failed to receive and decode Version message from the remote peer").change_context
                .handshakeMessageExchangeError)
            | .ok message_version_remote =>
              match message_version_remote with
              | HsMessage.version _ =>
                let _verack_bytes := make_verack_message_serialised
                match env.write_verack with
                | .error _ =>
                  .error (((intoReport .ioError).attach_printable
                    "Failed to send VerAck message to the remote peer").change_context
                    .handshakeMessageExchangeError)
                | .ok _ =>
                  match env.read_second with
                  | .error _ =>
                    .error (((intoReport .decodeError).attach_printable
                      "Failed to receive and decode VerAck message from the remote peer").change_context
                      .handshakeMessageExchangeError)
                  | .ok message_verack_remote =>
                    match message_verack_remote with
                    | HsMessage.verack => .ok true
                    | _ =>
                      .error (((Report.new .handshakeMessageVerAckError).attach_printable
                        "Received unexpected message, but expected VerAck message").change_context
                        .handshakeMessageExchangeError)
              | _ =>
                .error (((Report.new .handshakeMessageWrongProtocolError).attach_printable
                  "Received unexpected protocol version").change_context
                  .handshakeMessageExchangeError)

/-- Mirror of `HandshakeManager`: timeout budget plus the ledger of recorded handshake
statuses (the `HashMap<SocketAddr, bool>` is modelled as its lookup
function). -/
structure HandshakeManager where
  timeout_ms : Nat
  statuses : SocketAddr → Option Bool

/-- Mirror of `HandshakeManager::default()`: 2000 ms budget, empty ledger. -/
def HandshakeManager.defaultHm : HandshakeManager :=
  { timeout_ms := 2000, statuses := fun _ => none }

/-- The scheduling oracle for one `establish_handshake` call: how long the
spawned `exec_handshake` task would take, whether joining it succeeds, and
its I/O oracle. -/
structure EstablishEnv where
  exec_duration_ms : Nat
  join_ok : Bool
  exec_env : ExecEnv

/-- Mirror of `HandshakeManager::establish_handshake(remote)`: spawn `exec_handshake`
and await it under `timeout(self.timeout_ms)`.  The timeout elapsing, a
join failure, and an exchange failure each early-return with a report whose
current context is `HandshakeError`; otherwise the task's status is passed
through.  The receiver is returned unchanged: the Rust body reads
`self.timeout_ms` and never writes any field of `self`. -/
def establish_handshake (m : HandshakeManager) (env : EstablishEnv) :
    HandshakeManager × Except Report Bool :=
  if m.timeout_ms < env.exec_duration_ms then
    (m, .error (((intoReport .elapsedError).change_context .handshakeError).attach_printable
      "Handshake timed out"))
  else if env.join_ok = false then
    (m, .error ((((intoReport .joinError).change_context .handshakeThreadError).attach_printable
      "Handshake thread failed to join").change_context .handshakeError))
  else
    match exec_handshake env.exec_env with
    | .error r =>
      (m, .error (((r.change_context .handshakeMessageExchangeError).attach_printable
        "Handshake message exchange failed").change_context .handshakeError))
    | .ok hs_status => (m, .ok hs_status)

/-- Mirror of `HandshakeManager::record_handshake(remote, status)`:
`self.statuses.insert(remote, status)`. -/
def record_handshake (m : HandshakeManager) (remote : SocketAddr)
    (status : Bool) : HandshakeManager :=
  { m with statuses := fun a => if a = remote then some status else m.statuses a }

/-- Whether the spawned unit of work is still running when
`establish_handshake` returns. -/
inductive TaskState where
  | running
  | finished
deriving DecidableEq

/-- The task lifecycle of `establish_handshake` under tokio's semantics:
`tokio::time::timeout(d, join_handle)` polls the `JoinHandle` under a
timer; when the timer fires first, the await resolves to `Err(Elapsed)` and
the `JoinHandle` is dropped.  Dropping a tokio `JoinHandle` *detaches* the
task — the source contains no `abort` call and no cancellation signal — so
on the timeout path the spawned `exec_handshake`, together with the
`TcpStream` it owns, keeps running after the caller has observed the
timeout; it finishes only on its own schedule. -/
def establish_handshake_task (m : HandshakeManager) (env : EstablishEnv) :
    (HandshakeManager × Except Report Bool) × TaskState :=
  (establish_handshake m env,
   if m.timeout_ms < env.exec_duration_ms then TaskState.running
   else TaskState.finished)

/-! ## Auxiliary lemmas -/

theorem IpAddr.segments_length (ip : IpAddr) : ip.segments.length = 8 := by
  cases ip <;> rfl

theorem IpAddr.segments_lt (ip : IpAddr) (h : ip.wfb = true) :
    ∀ s ∈ ip.segments, s < 65536 := by
  cases ip with
  | v4 a b c d =>
    simp [IpAddr.wfb] at h
    simp [IpAddr.segments]
    omega
  | v6 s0 s1 s2 s3 s4 s5 s6 s7 =>
    simp [IpAddr.wfb] at h
    simp [IpAddr.segments]
    omega

theorem SocketAddr.wfb_ip {sa : SocketAddr} (h : sa.wfb = true) :
    sa.ip.wfb = true := by
  simp [SocketAddr.wfb] at h
  exact h.1

theorem SocketAddr.wfb_port {sa : SocketAddr} (h : sa.wfb = true) :
    sa.port < 65536 := by
  simp [SocketAddr.wfb] at h
  exact h.2

/-- The per-hostname resolution results with failures replaced by `[]`. -/
def resolvedSuccesses (resolve : DnsResolver) (dns : List String)
    (port : Nat) : List (List SocketAddr) :=
  dns.map fun d =>
    match resolve d port with
    | .ok sa => sa
    | .error _ => []

theorem lookup_active_nodes_foldl (resolve : DnsResolver) (dns : List String)
    (port : Nat) : ∀ acc : List SocketAddr,
    dns.foldl
      (fun v d =>
        match resolve d port with
        | .ok sa => v ++ sa
        | .error _ => v)
      acc = acc ++ (resolvedSuccesses resolve dns port).flatten := by
  induction dns with
  | nil => intro acc; simp [resolvedSuccesses]
  | cons d t ih =>
    intro acc
    simp only [List.foldl_cons, resolvedSuccesses, List.map_cons, List.flatten]
    cases hr : resolve d port with
    | ok sa => rw [ih (acc ++ sa)]; simp [resolvedSuccesses, List.append_assoc]
    | error e => rw [ih acc]; simp [resolvedSuccesses]

theorem lookup_active_nodes_eq_join (resolve : DnsResolver) (dns : List String)
    (port : Nat) :
    lookup_active_nodes resolve dns port =
      (resolvedSuccesses resolve dns port).flatten := by
  unfold lookup_active_nodes
  simpa using lookup_active_nodes_foldl resolve dns port []

theorem resolvedSuccesses_all_fail (resolve : DnsResolver) (dns : List String)
    (port : Nat) (h : ∀ d ∈ dns, ∃ e, resolve d port = .error e) :
    (resolvedSuccesses resolve dns port).flatten = [] := by
  induction dns with
  | nil => rfl
  | cons d t ih =>
    obtain ⟨e, he⟩ := h d (List.mem_cons_self d t)
    have ht : ∀ x ∈ t, ∃ e, resolve x port = .error e :=
      fun x hx => h x (List.mem_cons_of_mem d hx)
    simp only [resolvedSuccesses, List.map_cons, List.flatten, he]
    simpa [resolvedSuccesses] using ih ht

/-! ## Claim C6: the seed table lookup -/

/-- C6.  For every index `i < 9`, `dns_seed_at_index i` returns the `i`-th
entry of the fixed nine-entry seed table (it is literally
`DEFAULT_DNS_SEEDS.get? i`, hence deterministic and identical across
calls); for every `i ≥ 9` it returns `none`. -/
theorem dns_seed_at_index_spec (i : Nat) :
    DEFAULT_DNS_SEEDS.length = 9 ∧
    dns_seed_at_index i = DEFAULT_DNS_SEEDS.get? i ∧
    (i < 9 → ∃ s, dns_seed_at_index i = some s) ∧
    (9 ≤ i → dns_seed_at_index i = none) := by
  refine ⟨rfl, rfl, fun h => ?_, fun h => ?_⟩
  · have hl : i < DEFAULT_DNS_SEEDS.length := by
      simpa [DEFAULT_DNS_SEEDS] using h
    exact ⟨DEFAULT_DNS_SEEDS.get ⟨i, hl⟩, by
      simp [dns_seed_at_index, List.get?_eq_get hl]⟩
  · have hl : DEFAULT_DNS_SEEDS.length ≤ i := by
      simpa [DEFAULT_DNS_SEEDS] using h
    exact List.get?_eq_none.mpr hl

/-- C6 witness: index 3 resolves to an entry, index 9 is out of range. -/
theorem dns_seed_at_index_spec_witness :
    (∃ s, dns_seed_at_index 3 = some s) ∧ dns_seed_at_index 9 = none :=
  ⟨(dns_seed_at_index_spec 3).2.2.1 (by decide),
   (dns_seed_at_index_spec 9).2.2.2 (by decide)⟩

/-! ## Claim C5: `lookup_active_nodes` over the default seed table -/

/-- C5.  `lookup_active_nodes` over the default seed table never fails: it
is a total function equal to the concatenation of the per-hostname
successes, so hostnames whose resolution fails contribute nothing, and if
every hostname fails the result is the empty list. -/
theorem lookup_active_nodes_spec (resolve : DnsResolver) (port : Nat) :
    lookup_active_nodes resolve DEFAULT_DNS_SEEDS port =
      (resolvedSuccesses resolve DEFAULT_DNS_SEEDS port).flatten ∧
    ((∀ d ∈ DEFAULT_DNS_SEEDS, ∃ e, resolve d port = .error e) →
      lookup_active_nodes resolve DEFAULT_DNS_SEEDS port = []) := by
  refine ⟨lookup_active_nodes_eq_join .., fun h => ?_⟩
  rw [lookup_active_nodes_eq_join]
  exact resolvedSuccesses_all_fail resolve DEFAULT_DNS_SEEDS port h

/-- A resolver for which every lookup fails. -/
def failingResolver : DnsResolver := fun _ _ => .error ()

/-- C5 witness: with an always-failing resolver the default lookup returns
the empty list. -/
theorem lookup_active_nodes_spec_witness :
    lookup_active_nodes failingResolver DEFAULT_DNS_SEEDS DEFAULT_PORT_MAINNET = [] :=
  (lookup_active_nodes_spec failingResolver DEFAULT_PORT_MAINNET).2
    (fun _ _ => ⟨(), rfl⟩)

/-! ## Claim C4: `new_with_dns` error behaviour (corrected) -/

/-- C4 counterexample.  With a failing resolver, `new_with_dns` on the
concrete hostname `"seed.bitcoin.sipa.be."` returns a `DnsLookupError`
report, not the empty result the claim asserts: the claim's "yields an
empty result rather than an error" is false of the code. -/
theorem new_with_dns_error_not_empty_cex :
    new_with_dns failingResolver "seed.bitcoin.sipa.be." =
      .error (((intoReport .ioError).attach_printable
        "Failed to lookup dns seeds by URL").change_context .dnsLookupError) ∧
    new_with_dns failingResolver "seed.bitcoin.sipa.be." ≠
      .ok DnsSeedManager.new := by
  refine ⟨rfl, ?_⟩
  intro h
  simp [new_with_dns, failingResolver] at h

/-- C4 (amended).  `new_with_dns` returns exactly the addresses the
resolver returns on success; when resolution of the hostname fails it
returns a `DnsLookupError` report (never a success, in particular never an
empty success) — the failure-swallowing behaviour belongs to
`lookup_active_nodes`, not to `new_with_dns`. -/
theorem new_with_dns_spec (resolve : DnsResolver) (dns : String) :
    (∀ l, resolve dns DEFAULT_PORT_MAINNET = .ok l →
      new_with_dns resolve dns = .ok { active_nodes := l }) ∧
    (∀ e, resolve dns DEFAULT_PORT_MAINNET = .error e →
      new_with_dns resolve dns =
        .error (((intoReport .ioError).attach_printable
          "Failed to lookup dns seeds by URL").change_context .dnsLookupError) ∧
      ∀ dsm, new_with_dns resolve dns ≠ .ok dsm) := by
  constructor
  · intro l hl
    simp [new_with_dns, hl, DnsSeedManager.new]
  · intro e he
    refine ⟨by simp [new_with_dns, he], fun dsm h => ?_⟩
    simp [new_with_dns, he] at h

/-- A resolver that always answers with one fixed address. -/
def oneAddressResolver : DnsResolver :=
  fun _ _ => .ok [{ ip := IpAddr.v4 127 0 0 1, port := 8333 }]

/-- C4 witness: a succeeding lookup yields exactly the resolver's addresses,
and a failing lookup yields the `DnsLookupError` report. -/
theorem new_with_dns_spec_witness :
    new_with_dns oneAddressResolver "dnsseed.bluematt.me." =
      .ok { active_nodes := [{ ip := IpAddr.v4 127 0 0 1, port := 8333 }] } ∧
    new_with_dns failingResolver "dnsseed.bluematt.me." =
      .error (((intoReport .ioError).attach_printable
        "Failed to lookup dns seeds by URL").change_context .dnsLookupError) :=
  ⟨(new_with_dns_spec oneAddressResolver "dnsseed.bluematt.me.").1
      [{ ip := IpAddr.v4 127 0 0 1, port := 8333 }] rfl,
   ((new_with_dns_spec failingResolver "dnsseed.bluematt.me.").2 () rfl).1⟩

/-! ## Claim C8: `record_handshake` is an unconditional upsert -/

/-- C8.  `record_handshake` is an unconditional upsert: afterwards the
ledger maps the recorded address to exactly the recorded outcome whether or
not an entry existed, other addresses are untouched, and recording over a
previous entry leaves no trace of it (the ledger after
record-then-overwrite coincides pointwise with the ledger after a single
record). -/
theorem record_handshake_upsert (m : HandshakeManager) (remote : SocketAddr)
    (status : Bool) :
    (record_handshake m remote status).statuses remote = some status ∧
    (∀ a, a ≠ remote →
      (record_handshake m remote status).statuses a = m.statuses a) ∧
    (∀ prev a,
      (record_handshake (record_handshake m remote prev) remote status).statuses a =
        (record_handshake m remote status).statuses a) := by
  refine ⟨by simp [record_handshake], fun a ha => by simp [record_handshake, ha],
    fun prev a => ?_⟩
  by_cases h : a = remote <;> simp [record_handshake, h]

/-- Two concrete distinct peer addresses. -/
def peerAddrA : SocketAddr := { ip := IpAddr.v4 10 0 0 1, port := 8333 }

/-- A second concrete peer address, distinct from `peerAddrA`. -/
def peerAddrB : SocketAddr := { ip := IpAddr.v4 10 0 0 2, port := 8333 }

/-- C8 witness: recording `true` over an existing `false` entry for
`peerAddrA` yields exactly `true`, leaves `peerAddrB` untouched, and the
overwritten ledger agrees with a directly-recorded one. -/
theorem record_handshake_upsert_witness :
    (record_handshake HandshakeManager.defaultHm peerAddrA true).statuses peerAddrA =
      some true ∧
    (record_handshake HandshakeManager.defaultHm peerAddrA true).statuses peerAddrB =
      HandshakeManager.defaultHm.statuses peerAddrB ∧
    (record_handshake (record_handshake HandshakeManager.defaultHm peerAddrA false)
        peerAddrA true).statuses peerAddrA =
      (record_handshake HandshakeManager.defaultHm peerAddrA true).statuses peerAddrA :=
  ⟨(record_handshake_upsert HandshakeManager.defaultHm peerAddrA true).1,
   (record_handshake_upsert HandshakeManager.defaultHm peerAddrA true).2.1 peerAddrB
     (by decide),
   (record_handshake_upsert HandshakeManager.defaultHm peerAddrA true).2.2 false peerAddrA⟩

/-! ## Claim C2: Completed only for Version then VerAck -/

theorem exec_handshake_ok_true (env : ExecEnv) (b : Bool)
    (h : exec_handshake env = .ok b) : b = true := by
  unfold exec_handshake at h
  repeat' split at h
  all_goals simp_all

/-- C2.  A run of the message exchange succeeds only if the first decoded
message is a Version and the second is a VerAck, in that order; and when
the run reaches the respective read with a structurally valid message of
the wrong type, it ends in the wrong-protocol (resp. VerAck-violation)
error report — never in success. -/
theorem exec_handshake_version_then_verack (env : ExecEnv) :
    (∀ b, exec_handshake env = .ok b →
      (∃ v, env.read_first = .ok (HsMessage.version v)) ∧
      env.read_second = .ok HsMessage.verack) ∧
    (env.connect = .ok () → env.try_clone = .ok () →
      ∀ lp, env.local_addr = .ok lp → ∀ rp, env.peer_addr = .ok rp →
      env.write_version = .ok () →
      ∀ m1, env.read_first = .ok m1 → (∀ v, m1 ≠ HsMessage.version v) →
      exec_handshake env =
        .error (((Report.new .handshakeMessageWrongProtocolError).attach_printable
          "Received unexpected protocol version").change_context
          .handshakeMessageExchangeError)) ∧
    (env.connect = .ok () → env.try_clone = .ok () →
      ∀ lp, env.local_addr = .ok lp → ∀ rp, env.peer_addr = .ok rp →
      env.write_version = .ok () →
      ∀ v, env.read_first = .ok (HsMessage.version v) →
      env.write_verack = .ok () →
      ∀ m2, env.read_second = .ok m2 → m2 ≠ HsMessage.verack →
      exec_handshake env =
        .error (((Report.new .handshakeMessageVerAckError).attach_printable
          "Received unexpected message, but expected VerAck message").change_context
          .handshakeMessageExchangeError)) := by
  refine ⟨fun b h => ?_,
    fun hc ht lp hl rp hp hw m1 hm1 hnv => ?_,
    fun hc ht lp hl rp hp hw v hm1 hwv m2 hm2 hnv => ?_⟩
  · unfold exec_handshake at h
    repeat' split at h
    all_goals simp_all
  · cases m1 with
    | version v => exact absurd rfl (hnv v)
    | verack => simp [exec_handshake, hc, ht, hl, hp, hw, hm1]
    | other => simp [exec_handshake, hc, ht, hl, hp, hw, hm1]
  · cases m2 with
    | verack => exact absurd rfl hnv
    | version v2 => simp [exec_handshake, hc, ht, hl, hp, hw, hm1, hwv, hm2]
    | other => simp [exec_handshake, hc, ht, hl, hp, hw, hm1, hwv, hm2]

/-- An exchange in which the remote answers the local Version with a VerAck
where a Version is expected. -/
def execEnvFirstIsVerack : ExecEnv :=
  { connect := .ok (), try_clone := .ok (),
    local_addr := .ok peerAddrA, peer_addr := .ok peerAddrB,
    timestamp := 0, nonce := 0,
    write_version := .ok (), read_first := .ok HsMessage.verack,
    write_verack := .ok (), read_second := .ok HsMessage.verack }

/-- C2 witness: a VerAck arriving where a Version is expected produces the
wrong-protocol failure. -/
theorem exec_handshake_version_then_verack_witness :
    exec_handshake execEnvFirstIsVerack =
      .error (((Report.new .handshakeMessageWrongProtocolError).attach_printable
        "Received unexpected protocol version").change_context
        .handshakeMessageExchangeError) :=
  (exec_handshake_version_then_verack execEnvFirstIsVerack).2.1 rfl rfl
    peerAddrA rfl peerAddrB rfl rfl HsMessage.verack rfl
    (fun _ h => HsMessage.noConfusion h)

/-! ## Claim C9: `establish_handshake` never returns `Ok(false)` -/

/-- C9.  Every successful return of `establish_handshake` carries `true`:
the only non-error exit of `exec_handshake` is `Ok(true)` and
`establish_handshake` passes that status through, so the documented
`false` branch of the boolean result is unreachable. -/
theorem establish_handshake_ok_implies_true (m : HandshakeManager)
    (env : EstablishEnv) (b : Bool)
    (h : (establish_handshake m env).2 = .ok b) : b = true := by
  unfold establish_handshake at h
  split at h
  · exact absurd h (by simp)
  · split at h
    · exact absurd h (by simp)
    · revert h
      cases hx : exec_handshake env.exec_env with
      | error r => intro h; exact absurd h (by simp)
      | ok s =>
        intro h
        simp at h
        exact h ▸ exec_handshake_ok_true env.exec_env s hx

/-- A fully compliant exchange: remote sends Version then VerAck. -/
def execEnvAllOk : ExecEnv :=
  { connect := .ok (), try_clone := .ok (),
    local_addr := .ok peerAddrA, peer_addr := .ok peerAddrB,
    timestamp := 0, nonce := 0,
    write_version := .ok (), read_first := .ok (HsMessage.version 70016),
    write_verack := .ok (), read_second := .ok HsMessage.verack }

/-- A scheduling environment in which the task finishes well inside the
budget and joins cleanly. -/
def establishEnvAllOk : EstablishEnv :=
  { exec_duration_ms := 10, join_ok := true, exec_env := execEnvAllOk }

/-- C9 witness: the compliant exchange returns `Ok(true)`, and the theorem
applied to it yields `true = true`. -/
theorem establish_handshake_ok_implies_true_witness :
    (establish_handshake HandshakeManager.defaultHm establishEnvAllOk).2 =
      .ok true ∧ true = true :=
  ⟨rfl, establish_handshake_ok_implies_true HandshakeManager.defaultHm
    establishEnvAllOk true rfl⟩

/-! ## Claim C10: `establish_handshake` leaves the ledger unchanged -/

/-- C10.  `establish_handshake` leaves the manager — in particular the
`statuses` ledger — unchanged on every input and every outcome: the ledger
at every address reads the same after the call, so an entry can only appear
through a separate `record_handshake` call. -/
theorem establish_handshake_preserves_ledger (m : HandshakeManager)
    (env : EstablishEnv) :
    ((establish_handshake m env).1).timeout_ms = m.timeout_ms ∧
    (∀ a, ((establish_handshake m env).1).statuses a = m.statuses a) := by
  have h1 : (establish_handshake m env).1 = m := by
    unfold establish_handshake
    split
    · rfl
    · split
      · rfl
      · split <;> rfl
  exact ⟨by rw [h1], fun a => by rw [h1]⟩

/-! ## Claim C7: connect failure's error kind (corrected) -/

/-- The current context of the report in a failed result, if any. -/
def errContextOf : Except Report Bool → Option ErrCtx
  | .error r => some r.context
  | .ok _ => none

/-- An exchange in which opening the connection fails. -/
def execEnvConnectFail : ExecEnv :=
  { connect := .error (), try_clone := .ok (),
    local_addr := .ok peerAddrA, peer_addr := .ok peerAddrB,
    timestamp := 0, nonce := 0,
    write_version := .ok (), read_first := .ok (HsMessage.version 70016),
    write_verack := .ok (), read_second := .ok HsMessage.verack }

/-- An exchange in which the connection opens but writing the Version
message fails (a post-connection I/O failure). -/
def execEnvWriteFail : ExecEnv :=
  { connect := .ok (), try_clone := .ok (),
    local_addr := .ok peerAddrA, peer_addr := .ok peerAddrB,
    timestamp := 0, nonce := 0,
    write_version := .error (), read_first := .ok (HsMessage.version 70016),
    write_verack := .ok (), read_second := .ok HsMessage.verack }

/-- C7 counterexample.  The error kind (the report's current context, the
only thing a caller can match on) of a connect failure is
`HandshakeMessageExchangeError` — exactly the same kind as a post-connect
write failure.  The claim's "an error kind distinct from the IoError
produced by read/write failures" is false of the code: no distinct
`ConnectError` kind exists. -/
theorem exec_handshake_connect_error_kind_cex :
    errContextOf (exec_handshake execEnvConnectFail) =
      some ErrCtx.handshakeMessageExchangeError ∧
    errContextOf (exec_handshake execEnvWriteFail) =
      some ErrCtx.handshakeMessageExchangeError ∧
    errContextOf (exec_handshake execEnvConnectFail) =
      errContextOf (exec_handshake execEnvWriteFail) :=
  ⟨rfl, rfl, rfl⟩

/-- C7 (amended).  When the connection cannot be opened the attempt ends in
a failed outcome, but its error kind is `HandshakeMessageExchangeError` —
the same current context as post-connection read/write failures; the
connect case is distinguishable only by its frames (it carries no
underlying io-error frame, and a connect-specific printable). -/
theorem exec_handshake_connect_failure (env : ExecEnv)
    (h : env.connect = .error ()) :
    exec_handshake env =
      .error ((Report.new .handshakeMessageExchangeError).attach_printable
        "Failed to connect to node") ∧
    ((Report.new .handshakeMessageExchangeError).attach_printable
      "Failed to connect to node").context =
        ErrCtx.handshakeMessageExchangeError ∧
    Frame.context ErrCtx.ioError ∉
      ((Report.new .handshakeMessageExchangeError).attach_printable
        "Failed to connect to node").frames := by
  refine ⟨?_, rfl, by decide⟩
  simp [exec_handshake, h]

/-- C7 witness: the amended theorem applied to the concrete failing
connect. -/
theorem exec_handshake_connect_failure_witness :
    exec_handshake execEnvConnectFail =
      .error ((Report.new .handshakeMessageExchangeError).attach_printable
        "Failed to connect to node") :=
  (exec_handshake_connect_failure execEnvConnectFail rfl).1

/-! ## Claim C1: the timeout path does not stop the spawned work -/

/-- A scheduling environment for a compliant but slow peer: the exchange
would need 5000 ms, beyond the default 2000 ms budget. -/
def establishEnvSlowPeer : EstablishEnv :=
  { exec_duration_ms := 5000, join_ok := true, exec_env := execEnvAllOk }

/-- C1 (the code violates the claim).  When the budget elapses first,
`establish_handshake` returns the timeout error, yet at that decision point
the spawned unit of work is still running: `tokio::time::timeout` merely
stops awaiting the `JoinHandle`, dropping it detaches the task, and the
source contains no `abort`/cancellation and no socket close on the timeout
path — the work continues detached after the caller observes the timeout,
contradicting the claim. -/
theorem establish_handshake_timeout_task_detached :
    (establish_handshake_task HandshakeManager.defaultHm establishEnvSlowPeer).1.2 =
      .error (((intoReport .elapsedError).change_context .handshakeError).attach_printable
        "Handshake timed out") ∧
    (establish_handshake_task HandshakeManager.defaultHm establishEnvSlowPeer).2 =
      TaskState.running ∧
    TaskState.running ≠ TaskState.finished :=
  ⟨rfl, rfl, by decide⟩

/-! ## Claim C3: round trip of a freshly built Version message -/

/-- The Version payload `new_version_message` builds, as an explicit
record. -/
def builtVersionMessage (local_peer remote_peer : SocketAddr)
    (timestamp : Int) (nonce : Nat) : VersionMessage :=
  { version := PROTOCOL_VERSION, services := SERVICES_NONE,
    timestamp := timestamp,
    receiver := Address.new remote_peer SERVICES_NONE,
    sender := Address.new local_peer SERVICES_NONE,
    nonce := nonce, user_agent := USER_AGENT, start_height := 0 }

theorem new_version_message_eq_built (local_peer remote_peer : SocketAddr)
    (timestamp : Int) (nonce : Nat) :
    (new_version_message local_peer remote_peer timestamp nonce).2 =
      NetworkMessage.version
        (builtVersionMessage local_peer remote_peer timestamp nonce) := rfl

/-- C3.  For any well-formed local/remote address pair, parsing the
serialised bytes of a freshly built Version message yields, with no bytes
left over, a payload structurally equal to the built one field by field —
in particular its `timestamp` is exactly the wall-clock value sampled at
the call (delta zero in this model) and its `nonce` is exactly the RNG
draw, so two calls whose draws differ build messages that differ in their
nonce. -/
theorem new_version_message_roundtrip (local_peer remote_peer : SocketAddr)
    (timestamp : Int) (nonce n2 : Nat)
    (hl : local_peer.wfb = true) (hr : remote_peer.wfb = true)
    (htlo : -9223372036854775808 ≤ timestamp)
    (hthi : timestamp < 9223372036854775808)
    (hn : nonce < 18446744073709551616) :
    (∃ vm : VersionMessage,
      (new_version_message local_peer remote_peer timestamp nonce).2 =
        NetworkMessage.version vm ∧
      parseNext
        (new_version_message_serialised local_peer remote_peer timestamp nonce).2 =
        .ok ([118, 101, 114, 115, 105, 111, 110], NetworkMessage.version vm, []) ∧
      vm.version = PROTOCOL_VERSION ∧ vm.services = SERVICES_NONE ∧
      vm.timestamp = timestamp ∧
      vm.receiver = Address.new remote_peer SERVICES_NONE ∧
      vm.sender = Address.new local_peer SERVICES_NONE ∧
      vm.nonce = nonce ∧ vm.user_agent = USER_AGENT ∧ vm.start_height = 0) ∧
    (n2 ≠ nonce →
      (new_version_message local_peer remote_peer timestamp n2).2 ≠
        (new_version_message local_peer remote_peer timestamp nonce).2) := by
  constructor
  · refine ⟨builtVersionMessage local_peer remote_peer timestamp nonce,
      rfl, ?_, rfl, rfl, rfl, rfl, rfl, rfl, rfl, rfl⟩
    have hser : (new_version_message_serialised local_peer remote_peer
        timestamp nonce).2 =
        serializeRawNetworkMessage BITCOIN_MAGIC
          (NetworkMessage.version
            (builtVersionMessage local_peer remote_peer timestamp nonce)) := rfl
    rw [hser]
    exact parseNext_serialize_version
      (builtVersionMessage local_peer remote_peer timestamp nonce)
      (show PROTOCOL_VERSION < 4294967296 by decide)
      (show SERVICES_NONE < 18446744073709551616 by decide) htlo hthi
      (show SERVICES_NONE < 18446744073709551616 by decide)
      (IpAddr.segments_length remote_peer.ip)
      (IpAddr.segments_lt remote_peer.ip (SocketAddr.wfb_ip hr))
      (SocketAddr.wfb_port hr)
      (show SERVICES_NONE < 18446744073709551616 by decide)
      (IpAddr.segments_length local_peer.ip)
      (IpAddr.segments_lt local_peer.ip (SocketAddr.wfb_ip hl))
      (SocketAddr.wfb_port hl)
      hn (show USER_AGENT.length < 253 by decide)
      (show (-2147483648 : Int) ≤ (0 : Int) by decide)
      (show (0 : Int) < 2147483648 by decide)
  · intro hne h
    exact hne (by simpa [new_version_message] using h)

/-- C3 witness: the round trip at a concrete address pair, wall-clock
second and nonce, plus the nonce distinctness for a second concrete draw. -/
theorem new_version_message_roundtrip_witness :
    (∃ vm : VersionMessage,
      (new_version_message peerAddrA peerAddrB 1700000000 424242).2 =
        NetworkMessage.version vm ∧
      parseNext
        (new_version_message_serialised peerAddrA peerAddrB 1700000000 424242).2 =
        .ok ([118, 101, 114, 115, 105, 111, 110], NetworkMessage.version vm, []) ∧
      vm.version = PROTOCOL_VERSION ∧ vm.services = SERVICES_NONE ∧
      vm.timestamp = 1700000000 ∧
      vm.receiver = Address.new peerAddrB SERVICES_NONE ∧
      vm.sender = Address.new peerAddrA SERVICES_NONE ∧
      vm.nonce = 424242 ∧ vm.user_agent = USER_AGENT ∧ vm.start_height = 0) ∧
    (7 ≠ 424242 →
      (new_version_message peerAddrA peerAddrB 1700000000 7).2 ≠
        (new_version_message peerAddrA peerAddrB 1700000000 424242).2) :=
  new_version_message_roundtrip peerAddrA peerAddrB 1700000000 424242 7
    (by decide) (by decide) (by decide) (by decide) (by decide)
